import Mathlib

/-!
Shallow embedding of the claims-browsing backend core (claims query engine,
cursor codec, aggregate summary updater, summary broadcaster, profiling admin).

Sources embedded:
- backend/src/claims/claims.service.ts (parseCursor, listClaims, getClaim)
- backend/src/stats/summary-updater.service.ts (bootstrapIfNeeded, applyInsert)
- backend/src/stats/summary-stream.service.ts (emitSummary)
- backend/src/stats/stats.service.ts (clearSlowOps)

Modelling conventions:
- JavaScript Date values are modelled by their broken-down UTC fields
  (structure JsDate); the BSON/timestamp order on dates is the lexicographic
  order on those fields, realised through the injective-on-ranges key
  JsDate.key.  Date.prototype.toISOString and the ISO branch of the Date
  constructor are modelled character-by-character (isoChars, parseIsoChars).
- Mongo ObjectId values are modelled as natural numbers below 16^24; their
  string form is the 24-digit lowercase hex rendering, and ObjectId.isValid
  is the 24-hex-characters check of the bson library.
- Mongo queries are modelled over an in-memory list of documents: find+sort
  is a stable sort of the filtered list, skip/limit are drop/take, and
  countDocuments is the length of the filtered list.
- The JS numbers accumulated by the incremental summary updater are IEEE-754
  binary64 values; they are modelled as canonical mantissa-exponent pairs
  (structure Dbl) with round-to-nearest-even addition (dadd), so the
  order-sensitivity of floating-point accumulation is preserved.
-/

/-- Decimal digit character for a value below ten (JS number formatting). -/
def digitChar10 : Nat → Char
  | 0 => '0'
  | 1 => '1'
  | 2 => '2'
  | 3 => '3'
  | 4 => '4'
  | 5 => '5'
  | 6 => '6'
  | 7 => '7'
  | 8 => '8'
  | _ => '9'

/-- Decimal digit test on characters. -/
def isDigitCh (c : Char) : Bool := 48 ≤ c.toNat && c.toNat ≤ 57

/-- Numeric value of a decimal digit character. -/
def digitVal (c : Char) : Nat := c.toNat - 48

/-- Fixed-width zero-padded decimal rendering, most significant digit first. -/
def padDigits : Nat → Nat → List Char
  | 0, _ => []
  | k + 1, n => digitChar10 (n / 10 ^ k) :: padDigits k (n % 10 ^ k)

/-- Reads exactly the given number of decimal digits, extending the
accumulator, and returns the value together with the remaining input. -/
def readFixed : Nat → Nat → List Char → Option (Nat × List Char)
  | 0, acc, cs => some (acc, cs)
  | _ + 1, _, [] => none
  | k + 1, acc, c :: cs =>
    if isDigitCh c then readFixed k (acc * 10 + digitVal c) cs else none

/-- Lowercase hexadecimal digit character for a value below sixteen. -/
def hexCharL : Nat → Char
  | 0 => '0'
  | 1 => '1'
  | 2 => '2'
  | 3 => '3'
  | 4 => '4'
  | 5 => '5'
  | 6 => '6'
  | 7 => '7'
  | 8 => '8'
  | 9 => '9'
  | 10 => 'a'
  | 11 => 'b'
  | 12 => 'c'
  | 13 => 'd'
  | 14 => 'e'
  | _ => 'f'

/-- Hexadecimal digit test (both cases), as in the bson hex regular
expression used by ObjectId.isValid. -/
def isHexCh (c : Char) : Bool :=
  (48 ≤ c.toNat && c.toNat ≤ 57) || (97 ≤ c.toNat && c.toNat ≤ 102) ||
    (65 ≤ c.toNat && c.toNat ≤ 70)

/-- Numeric value of a hexadecimal digit character. -/
def hexVal (c : Char) : Nat :=
  if c.toNat ≤ 57 then c.toNat - 48
  else if c.toNat ≤ 70 then c.toNat - 55
  else c.toNat - 87

/-- Fixed-width lowercase hex rendering, most significant digit first;
with width 24 this is ObjectId.toString. -/
def padHex : Nat → Nat → List Char
  | 0, _ => []
  | k + 1, n => hexCharL (n / 16 ^ k) :: padHex k (n % 16 ^ k)

/-- Numeric value of a hex digit string; with a valid 24-character input this
is the ObjectId constructed from the string. -/
def hexValue (cs : List Char) : Nat := cs.foldl (fun acc c => acc * 16 + hexVal c) 0

/-- ObjectId.isValid on a string: exactly 24 hexadecimal characters. -/
def isValidObjectId (cs : List Char) : Bool := cs.length == 24 && cs.all isHexCh

/-- JavaScript Date modelled by its broken-down UTC fields. -/
structure JsDate where
  year : Nat
  month : Nat
  day : Nat
  hour : Nat
  minute : Nat
  second : Nat
  ms : Nat
deriving DecidableEq, Repr

/-- Numeric key realising the timestamp order on dates: the radices strictly
dominate the field ranges, so on in-range fields the key is injective and
ordered exactly like the underlying millisecond timestamp. -/
def JsDate.key (d : JsDate) : Nat :=
  (((((d.year * 13 + d.month) * 32 + d.day) * 24 + d.hour) * 60 + d.minute) * 60 +
      d.second) * 1000 + d.ms

/-- Dates representable in the fixed 24-character toISOString form. -/
def JsDate.Valid (d : JsDate) : Prop :=
  d.year ≤ 9999 ∧ 1 ≤ d.month ∧ d.month ≤ 12 ∧ 1 ≤ d.day ∧ d.day ≤ 31 ∧
    d.hour ≤ 23 ∧ d.minute ≤ 59 ∧ d.second ≤ 59 ∧ d.ms ≤ 999

instance (d : JsDate) : Decidable d.Valid := by
  unfold JsDate.Valid
  infer_instance

/-- Character rendering of Date.prototype.toISOString:
YYYY-MM-DDTHH:mm:ss.sssZ. -/
def isoChars (d : JsDate) : List Char :=
  padDigits 4 d.year ++ '-' :: (padDigits 2 d.month ++ '-' :: (padDigits 2 d.day ++
    'T' :: (padDigits 2 d.hour ++ ':' :: (padDigits 2 d.minute ++
    ':' :: (padDigits 2 d.second ++ '.' :: (padDigits 3 d.ms ++ ['Z']))))))

/-- Consumes one expected character from the input. -/
def expectChar (c : Char) : List Char → Option (List Char)
  | [] => none
  | x :: xs => if x = c then some xs else none

/-- Strict parser for the ISO date-time format produced by toISOString; this
models the branch of the JS Date constructor that the decoded cursors hit
(out-of-range fields make the string fail to parse, giving an invalid date). -/
def parseIsoChars (cs0 : List Char) : Option JsDate :=
  match readFixed 4 0 cs0 with
  | none => none
  | some (y, cs1) =>
  match expectChar '-' cs1 with
  | none => none
  | some cs2 =>
  match readFixed 2 0 cs2 with
  | none => none
  | some (mo, cs3) =>
  match expectChar '-' cs3 with
  | none => none
  | some cs4 =>
  match readFixed 2 0 cs4 with
  | none => none
  | some (dy, cs5) =>
  match expectChar 'T' cs5 with
  | none => none
  | some cs6 =>
  match readFixed 2 0 cs6 with
  | none => none
  | some (h, cs7) =>
  match expectChar ':' cs7 with
  | none => none
  | some cs8 =>
  match readFixed 2 0 cs8 with
  | none => none
  | some (mi, cs9) =>
  match expectChar ':' cs9 with
  | none => none
  | some cs10 =>
  match readFixed 2 0 cs10 with
  | none => none
  | some (s, cs11) =>
  match expectChar '.' cs11 with
  | none => none
  | some cs12 =>
  match readFixed 3 0 cs12 with
  | none => none
  | some (msv, cs13) =>
  match expectChar 'Z' cs13 with
  | none => none
  | some cs14 =>
  if cs14 = [] ∧ 1 ≤ mo ∧ mo ≤ 12 ∧ 1 ≤ dy ∧ dy ≤ 31 ∧ h ≤ 23 ∧ mi ≤ 59 ∧ s ≤ 59 then
    some ⟨y, mo, dy, h, mi, s, msv⟩
  else
    none

/-- String.prototype.split with a one-character separator. -/
def splitOnChar (sep : Char) : List Char → List (List Char)
  | [] => [[]]
  | c :: cs =>
    if c = sep then [] :: splitOnChar sep cs
    else
      match splitOnChar sep cs with
      | [] => [[c]]
      | g :: gs => (c :: g) :: gs

/-- parseCursor from claims.service.ts lines 9 to 19: split the token on the
separator, demand a nonempty date part, a nonempty valid ObjectId part, and a
parseable date; any failure yields no cursor instead of an error. -/
def parseCursorChars (cs : List Char) : Option (JsDate × Nat) :=
  match splitOnChar '|' cs with
  | dateStr :: idStr :: _ =>
    if dateStr = [] ∨ idStr = [] ∨ isValidObjectId idStr = false then none
    else
      match parseIsoChars dateStr with
      | none => none
      | some d => some (d, hexValue idStr)
  | _ => none

/-- String-level entry point of the cursor decoder. -/
def parseCursor (s : String) : Option (JsDate × Nat) := parseCursorChars s.toList

/-- Cursor encoding from claims.service.ts line 121: the ISO rendering of the
last serviceDate, the separator, then the hex rendering of the last id. -/
def encodeCursor (d : JsDate) (id : Nat) : String :=
  String.mk (isoChars d ++ '|' :: padHex 24 id)

/-! Data model and query embedding for the claims service. -/

/-- Claim document, immutable after insert. -/
structure Claim where
  id : Nat
  serviceDate : JsDate
  status : String
  memberRegion : String
  providerSpecialty : String
  totalAmount : Int
  procedureCodes : List String
  diagnosisCodes : List String
  searchText : String
deriving DecidableEq, Repr

/-- Query object received by listClaims, one field per ClaimsQuery property. -/
structure ClaimsQuery where
  q : Option String := none
  status : Option String := none
  region : Option String := none
  providerSpecialty : Option String := none
  startDate : Option JsDate := none
  endDate : Option JsDate := none
  minAmount : Option Int := none
  maxAmount : Option Int := none
  codes : Option String := none
  sortBy : Option String := none
  sortDir : Option String := none
  page : Option Nat := none
  pageSize : Option Nat := none
  includeTotal : Option String := none
  cursor : Option String := none
deriving DecidableEq, Repr

/-- JS truthiness on an optional string: the empty string counts as absent. -/
def optStr : Option String → Option String
  | some s => if s = "" then none else some s
  | none => none

/-- JS expression of the form value or default on an optional number: zero and
absent both fall back to the default, as with page and pageSize. -/
def jsOrNat (o : Option Nat) (dflt : Nat) : Nat :=
  match o with
  | some n => if n = 0 then dflt else n
  | none => dflt

/-- Whitelist from claims.service.ts line 6. -/
def allowedSortFields : List String :=
  ["serviceDate", "totalAmount", "status", "memberRegion", "providerSpecialty"]

/-- String.prototype.trim. -/
def trimChars (l : List Char) : List Char :=
  ((l.dropWhile Char.isWhitespace).reverse.dropWhile Char.isWhitespace).reverse

/-- Codes parsing of claims.service.ts line 52: split on commas, trim each
piece, and drop the empties. -/
def parsedCodes (qr : ClaimsQuery) : List String :=
  match optStr qr.codes with
  | some s => ((splitOnChar ',' s.toList).map (fun cs => String.mk (trimChars cs))).filter
      (fun c => c ≠ "")
  | none => []

/-- Compiled code clause, lines 54 to 59: an or-group matching any requested
code inside either procedureCodes or diagnosisCodes. -/
def matchesCodes (codes : List String) (c : Claim) : Bool :=
  codes.any (fun code => c.procedureCodes.contains code) ||
    codes.any (fun code => c.diagnosisCodes.contains code)

/-- Simplified model of the Mongo full-text predicate on the text index: some
whitespace token of the search string occurs as a token of searchText. -/
def textMatches (search : String) (c : Claim) : Bool :=
  ((splitOnChar ' ' search.toList).filter (fun t => t ≠ [])).any
    (fun t => (splitOnChar ' ' c.searchText.toList).contains t)

/-- Compiled base filter, lines 30 to 50: equality clauses for status, region
and specialty, and inclusive range clauses for serviceDate and totalAmount. -/
def matchesBaseFilter (qr : ClaimsQuery) (c : Claim) : Bool :=
  (match optStr qr.status with
    | some s => c.status == s
    | none => true) &&
  (match optStr qr.region with
    | some s => c.memberRegion == s
    | none => true) &&
  (match optStr qr.providerSpecialty with
    | some s => c.providerSpecialty == s
    | none => true) &&
  (match qr.startDate with
    | some d => decide (d.key ≤ c.serviceDate.key)
    | none => true) &&
  (match qr.endDate with
    | some d => decide (c.serviceDate.key ≤ d.key)
    | none => true) &&
  (match qr.minAmount with
    | some a => decide (a ≤ c.totalAmount)
    | none => true) &&
  (match qr.maxAmount with
    | some a => decide (c.totalAmount ≤ a)
    | none => true)

/-- Presence test matching Object.keys(baseFilter).length greater than zero. -/
def baseFilterNonempty (qr : ClaimsQuery) : Bool :=
  (optStr qr.status).isSome || (optStr qr.region).isSome ||
    (optStr qr.providerSpecialty).isSome || qr.startDate.isSome || qr.endDate.isSome ||
    qr.minAmount.isSome || qr.maxAmount.isSome

/-- Cursor boundary filter, lines 81 to 93: for descending order the strict
predecessor predicate on (serviceDate, id), for ascending the successor. -/
def cursorBoundary (sortDir : Int) (lastDate : JsDate) (lastId : Nat) (c : Claim) : Bool :=
  if sortDir = -1 then
    decide (c.serviceDate.key < lastDate.key) ||
      (decide (c.serviceDate.key = lastDate.key) && decide (c.id < lastId))
  else
    decide (lastDate.key < c.serviceDate.key) ||
      (decide (c.serviceDate.key = lastDate.key) && decide (lastId < c.id))

/-- Sort direction from line 72: 1 for asc, otherwise -1. -/
def sortDirOf (qr : ClaimsQuery) : Int := if qr.sortDir == some "asc" then 1 else -1

/-- Effective sort field from line 71: forced to serviceDate whenever a cursor
parameter is present, otherwise the requested field if whitelisted. -/
def sortByOf (qr : ClaimsQuery) : String :=
  if qr.cursor.isSome then "serviceDate"
  else
    match qr.sortBy with
    | some s => if allowedSortFields.contains s then s else "serviceDate"
    | none => "serviceDate"

/-- Boundary filter construction, lines 77 to 95: only a truthy cursor that
decodes successfully contributes a filter. -/
def cursorFilterOpt (qr : ClaimsQuery) : Option (Claim → Bool) :=
  match qr.cursor with
  | some s =>
    if s = "" then none
    else
      match parseCursor s with
      | some (d, i) => some (cursorBoundary (sortDirOf qr) d i)
      | none => none
  | none => none

/-- Conjunction list mirroring andFilters, lines 51 to 98, in push order:
codes or-group, text clause, base filter, cursor boundary. -/
def andFiltersFull (qr : ClaimsQuery) : List (Claim → Bool) :=
  (if parsedCodes qr ≠ [] then [matchesCodes (parsedCodes qr)] else []) ++
  (match optStr qr.q with
    | some s => [textMatches s]
    | none => []) ++
  (if baseFilterNonempty qr then [matchesBaseFilter qr] else []) ++
  (match cursorFilterOpt qr with
    | some f => [f]
    | none => [])

/-- Compiled filter, lines 100 to 102: the conjunction of all pushed clauses
(the empty, singleton and and-combined cases all denote this conjunction). -/
def claimsFilterPred (qr : ClaimsQuery) (c : Claim) : Bool :=
  (andFiltersFull qr).all (fun f => f c)

/-- Byte order on ASCII strings, the BSON comparison used for string sorts. -/
def charListLe : List Char → List Char → Bool
  | [], _ => true
  | _ :: _, [] => false
  | a :: as, b :: bs => if a = b then charListLe as bs else decide (a < b)

/-- Ascending lexicographic order on (serviceDate, id). -/
def cursorLexLe (a b : Claim) : Bool :=
  decide (a.serviceDate.key < b.serviceDate.key) ||
    (decide (a.serviceDate.key = b.serviceDate.key) && decide (a.id ≤ b.id))

/-- Cursor-mode sort of line 113: (serviceDate, id) both in the requested
direction. -/
def cursorSortLe (dir : Int) (a b : Claim) : Bool :=
  if dir = 1 then cursorLexLe a b else cursorLexLe b a

/-- Single-field comparison for the offset-mode sort of line 126. -/
def fieldLe (sortBy : String) (a b : Claim) : Bool :=
  if sortBy = "totalAmount" then decide (a.totalAmount ≤ b.totalAmount)
  else if sortBy = "status" then charListLe a.status.toList b.status.toList
  else if sortBy = "memberRegion" then charListLe a.memberRegion.toList b.memberRegion.toList
  else if sortBy = "providerSpecialty" then
    charListLe a.providerSpecialty.toList b.providerSpecialty.toList
  else decide (a.serviceDate.key ≤ b.serviceDate.key)

/-- Offset-mode sort in the requested direction. -/
def offsetSortLe (sortBy : String) (dir : Int) (a b : Claim) : Bool :=
  if dir = 1 then fieldLe sortBy a b else fieldLe sortBy b a

/-- Stable insertion of an element into a sorted list. -/
def insertSorted (le : α → α → Bool) (x : α) : List α → List α
  | [] => [x]
  | y :: ys => if le x y then x :: y :: ys else y :: insertSorted le x ys

/-- Stable sort used to model the find plus sort pipeline of the document
store; stability fixes one of the orders Mongo may return for tied keys. -/
def sortByLe (le : α → α → Bool) : List α → List α
  | [] => []
  | x :: xs => insertSorted le x (sortByLe le xs)

/-- includeTotal flag of line 75. -/
def includeTotalOf (qr : ClaimsQuery) : Bool :=
  qr.includeTotal == some "1" || qr.includeTotal == some "true"

/-- Response metadata of lines 144 to 153; queryTimeMs, a wall-clock
measurement, is not modelled. -/
structure ListMeta where
  page : Nat
  pageSize : Nat
  total : Option Nat
  sortBy : String
  sortDir : String
  hasMore : Option Bool
  nextCursor : Option String
deriving DecidableEq, Repr

/-- Response shape of listClaims. -/
structure ListResult where
  data : List Claim
  meta : ListMeta
deriving DecidableEq, Repr

/-- listClaims from claims.service.ts lines 23 to 155 over an in-memory
collection: find+sort is a stable sort of the filtered collection, limit and
skip are take and drop, countDocuments is the filtered length. -/
def listClaims (db : List Claim) (qr : ClaimsQuery) : ListResult :=
  let hasCursor := qr.cursor.isSome
  let sortBy := sortByOf qr
  let sortDir := sortDirOf qr
  let page := jsOrNat qr.page 1
  let pageSize := jsOrNat qr.pageSize 50
  let includeTotal := includeTotalOf qr
  let matching := db.filter (claimsFilterPred qr)
  let sortDirStr := if sortDir = 1 then "asc" else "desc"
  if hasCursor then
    let results := (sortByLe (cursorSortLe sortDir) matching).take (pageSize + 1)
    let hasMore := decide (pageSize < results.length)
    let items := if hasMore then results.take pageSize else results
    let nextCursor :=
      if hasMore then
        match items.getLast? with
        | some last => some (encodeCursor last.serviceDate last.id)
        | none => none
      else none
    ⟨items, ⟨page, pageSize, none, sortBy, sortDirStr, some hasMore, nextCursor⟩⟩
  else
    let sorted := sortByLe (offsetSortLe sortBy sortDir) matching
    let items := (sorted.drop ((page - 1) * pageSize)).take pageSize
    let total := if includeTotal then some matching.length else none
    ⟨items, ⟨page, pageSize, total, sortBy, sortDirStr, none, none⟩⟩

/-- Result of the point lookup together with the number of database queries
it issued. -/
structure GetResult where
  data : Option Claim
  dbQueries : Nat
deriving DecidableEq, Repr

/-- getClaim from claims.service.ts lines 157 to 167: an invalid id short
circuits to an absent result before any database access. -/
def getClaim (db : List Claim) (id : String) : GetResult :=
  if isValidObjectId id.toList = false then ⟨none, 0⟩
  else ⟨db.find? (fun c => c.id == hexValue id.toList), 1⟩

/-- Full result stream a cursor-mode query paginates: the compiled filter
applied to the collection, ordered by (serviceDate, id) in the requested
direction. -/
def cursorStream (db : List Claim) (qr : ClaimsQuery) : List Claim :=
  sortByLe (cursorSortLe (sortDirOf qr)) (db.filter (claimsFilterPred qr))

/-- Concrete fixture dates for witnesses. -/
def exDate1 : JsDate := ⟨2024, 1, 1, 0, 0, 0, 0⟩

def exDate2 : JsDate := ⟨2024, 1, 2, 0, 0, 0, 0⟩

def exDate3 : JsDate := ⟨2024, 1, 3, 0, 0, 0, 0⟩

/-- Concrete fixture claims for witnesses. -/
def exClaim1 : Claim := ⟨1, exDate1, "approved", "west", "gp", 100, ["p1"], ["dg1"], "alpha"⟩

def exClaim2 : Claim := ⟨2, exDate2, "denied", "east", "gp", 200, ["p2"], ["dg2"], "beta"⟩

def exClaim3 : Claim := ⟨3, exDate3, "approved", "west", "gp", 300, ["p3"], ["dg3"], "gamma"⟩

/-- Concrete fixture collection for witnesses. -/
def exDb : List Claim := [exClaim1, exClaim2, exClaim3]

/-- Fixture query: empty cursor token with a non-serviceDate sortBy request. -/
def exQcursor : ClaimsQuery where
  pageSize := some 2
  sortBy := some "totalAmount"
  cursor := some ""

/-- Fixture query: a decodable cursor token in the default descending order. -/
def exQboundary : ClaimsQuery where
  pageSize := some 2
  cursor := some (encodeCursor exDate2 2)

/-- Fixture query: offset mode with a status filter and includeTotal set. -/
def exQoffset : ClaimsQuery where
  pageSize := some 2
  status := some "approved"
  includeTotal := some "1"

/-- Fixture query: offset mode without includeTotal. -/
def exQoffsetNT : ClaimsQuery where
  pageSize := some 2
  status := some "approved"

/-! Stats-side data model: materialized summary, updater and broadcaster. -/

/-- Totals subdocument of the materialized summary. -/
structure Totals where
  totalClaims : Int
  totalAmount : Int
deriving DecidableEq, Repr

/-- Meta subdocument of the materialized summary. -/
structure SummaryMeta where
  generatedAt : Int
  durationMs : Int
  source : String
deriving DecidableEq, Repr

/-- Materialized summary document in the current shape; statusCounts is an
association list because BSON object key order is observable state. -/
structure SummaryDocS where
  totals : Totals
  statusCounts : List (String × Int)
  meta : SummaryMeta
deriving DecidableEq, Repr

/-- Stats-side persistent state: the claims collection, the stats_summary
singleton and the stats_procedure_counts collection keyed by code. -/
structure StatsDb where
  claims : List Claim
  summary : Option SummaryDocS
  procCounts : List (String × Int)
deriving DecidableEq, Repr

/-- Field assignment keeping the position of an existing key, as JS object
assignment does; models Object.fromEntries on a duplicate-bearing list. -/
def setKey : List (String × Int) → String → Int → List (String × Int)
  | [], k, v => [(k, v)]
  | (k', v') :: rest, k, v =>
    if k' = k then (k, v) :: rest else (k', v') :: setKey rest k v

/-- Object.fromEntries: later pairs overwrite the value of earlier keys. -/
def fromEntries (l : List (String × Int)) : List (String × Int) :=
  l.foldl (fun acc p => setKey acc p.1 p.2) []

/-! IEEE-754 binary64 model for the delta path. The JS numbers fed to the
inc updates are doubles, and the document store adds them with binary64
arithmetic, so the stored numerics of the live summary are modelled as
binary64 values with round-to-nearest-even addition, not as exact
integers. -/

/-- Finite IEEE-754 binary64 value in canonical form, denoting m times 2^e:
zero is ⟨0, 0⟩ and every other value has an odd mantissa of magnitude below
2^53, so equal values have equal representations. The format captures the
53-bit precision and round-to-nearest-even rounding of binary64; the bounded
exponent range is not modelled (no overflow to infinity, no subnormals, no
NaN, no negative zero), which is exact for every magnitude this program
stores. -/
structure Dbl where
  m : Int
  e : Int
deriving DecidableEq, Repr

/-- Double zero. -/
def dZero : Dbl := ⟨0, 0⟩

/-- Double one, the increment of every counter update. -/
def dOne : Dbl := ⟨1, 0⟩

/-- Bit length of a natural number; the structural fuel bounds the recursion
and is far beyond the bit lengths binary64 sums can produce. -/
def bitlenAux : Nat → Nat → Nat
  | 0, _ => 0
  | fuel + 1, n => if n = 0 then 0 else bitlenAux fuel (n / 2) + 1

/-- Bit length of a natural number. -/
def bitlen (n : Nat) : Nat := bitlenAux 4096 n

/-- Strips factors of two from a nonzero mantissa into the exponent, putting
a value into the canonical odd-mantissa form. -/
def stripTwosAux : Nat → Int → Int → Dbl
  | 0, m, e => ⟨m, e⟩
  | fuel + 1, m, e => if m % 2 = 0 then stripTwosAux fuel (m / 2) (e + 1) else ⟨m, e⟩

/-- Canonical form of the value m times 2^e. -/
def canonDbl (m : Int) (e : Int) : Dbl :=
  if m = 0 then ⟨0, 0⟩ else stripTwosAux 4096 m e

/-- Rounds the exact value M times 2^e to 53 significant bits, ties to even,
and returns the canonical form; rounding happens once, at full precision. -/
def roundDbl (M : Int) (e : Int) : Dbl :=
  if M = 0 then ⟨0, 0⟩
  else
    let a := M.natAbs
    let L := bitlen a
    if L ≤ 53 then canonDbl M e
    else
      let k := L - 53
      let q := a / 2 ^ k
      let r := a % 2 ^ k
      let half := 2 ^ (k - 1)
      let q2 :=
        if half < r then q + 1
        else if r < half then q
        else if q % 2 = 0 then q else q + 1
      canonDbl (if M < 0 then -(q2 : Int) else (q2 : Int)) (e + k)

/-- IEEE-754 binary64 addition of finite values: align the addends on the
smaller exponent, add exactly, round once. -/
def dadd (x y : Dbl) : Dbl :=
  let e0 := min x.e y.e
  roundDbl (x.m * 2 ^ (x.e - e0).toNat + y.m * 2 ^ (y.e - e0).toNat) e0

/-- Atomic increment of one key in a BSON object or keyed collection: an
existing key is updated in place by a double addition, a missing key is
appended with the increment value, as both the object increment and the
upserting updateOne behave. -/
def incKey : List (String × Dbl) → String → Dbl → List (String × Dbl)
  | [], k, v => [(k, v)]
  | (k', v') :: rest, k, v =>
    if k' = k then (k', dadd v' v) :: rest else (k', v') :: incKey rest k v

/-- Value of a key in a BSON object or keyed collection, zero when absent. -/
def lookupCount : List (String × Dbl) → String → Dbl
  | [], _ => dZero
  | (k', v') :: rest, k => if k' = k then v' else lookupCount rest k

/-- Insert-event document observed by the change stream, fields optional as
in the ClaimDoc type of summary-updater.service.ts; totalAmount is the JS
double carried by the document. -/
structure InsertDoc where
  totalAmount : Option Dbl
  status : Option String
  procedureCodes : Option (List String)
deriving DecidableEq, Repr

/-- Amount extraction of applyInsert line 230: a missing amount counts zero;
a present amount is the JS double itself. -/
def insertAmount (doc : InsertDoc) : Dbl := doc.totalAmount.getD dZero

/-- Status extraction of applyInsert line 231: a missing or empty status is
keyed as unknown. -/
def insertStatus (doc : InsertDoc) : String :=
  match doc.status with
  | some s => if s = "" then "unknown" else s
  | none => "unknown"

/-- Code extraction of applyInsert lines 232 to 234: a missing array counts
as empty and empty-string codes are dropped. -/
def insertCodes (doc : InsertDoc) : List String :=
  (doc.procedureCodes.getD []).filter (fun c => c ≠ "")

/-- Totals subdocument as maintained by the delta path, with the stored
numbers carrying their binary64 semantics: the claim counter only ever
receives exact increments of one, while the amount accumulates with
rounding. -/
structure DeltaTotals where
  totalClaims : Dbl
  totalAmount : Dbl
deriving DecidableEq, Repr

/-- Summary document as maintained by the delta path. The bootstrap model
keeps SummaryDocS with integer-valued aggregation outputs, whose byte
comparison its claim is about; here the stored numerics are doubles because
the increment arithmetic itself is this claim's subject. -/
structure DeltaSummaryDoc where
  totals : DeltaTotals
  statusCounts : List (String × Dbl)
  meta : SummaryMeta
deriving DecidableEq, Repr

/-- Persistent state touched by the delta path: the stats_summary singleton
and the stats_procedure_counts collection keyed by code. -/
structure DeltaStatsDb where
  summary : Option DeltaSummaryDoc
  procCounts : List (String × Dbl)
deriving DecidableEq, Repr

/-- applyInsert from summary-updater.service.ts lines 226 to 267: one upsert
incrementing the summary totals and the status counter and stamping meta,
then one bulk upsert incrementing the counter of every extracted procedure
code. Every numeric update is a binary64 addition (an increment of 1 on the
counters, of the document amount on totalAmount); the wall-clock values
written into meta are passed in as now and dur. -/
def applyInsert (now dur : Int) (doc : InsertDoc) (db : DeltaStatsDb) : DeltaStatsDb :=
  let amount := insertAmount doc
  let status := insertStatus doc
  let codes := insertCodes doc
  let base :=
    match db.summary with
    | some sdoc => sdoc
    | none => ⟨⟨dZero, dZero⟩, [], ⟨0, 0, ""⟩⟩
  let sdoc : DeltaSummaryDoc :=
    ⟨⟨dadd base.totals.totalClaims dOne, dadd base.totals.totalAmount amount⟩,
      incKey base.statusCounts status dOne, ⟨now, dur, "change-stream"⟩⟩
  ⟨some sdoc, codes.foldl (fun l code => incKey l code dOne) db.procCounts⟩

/-- One observed insert event together with the wall-clock values its delta
application will stamp into meta. -/
structure InsertEvent where
  doc : InsertDoc
  now : Int
  dur : Int
deriving DecidableEq, Repr

/-- Sequential delta application of a feed of insert events. -/
def applyEvents (db : DeltaStatsDb) (es : List InsertEvent) : DeltaStatsDb :=
  es.foldl (fun st e => applyInsert e.now e.dur e.doc st) db

/-- Totals of the stored summary, zeros when the singleton is absent. -/
def totalsOf (db : DeltaStatsDb) : DeltaTotals :=
  match db.summary with
  | some s => s.totals
  | none => ⟨dZero, dZero⟩

/-- Status counter of the stored summary, zero when absent. -/
def statusCountOf (db : DeltaStatsDb) (k : String) : Dbl :=
  match db.summary with
  | some s => lookupCount s.statusCounts k
  | none => dZero

/-- Per-procedure facet counter, zero when absent. -/
def procCountOf (db : DeltaStatsDb) (code : String) : Dbl :=
  lookupCount db.procCounts code

/-- Repeated counter update: n successive binary64 additions of one. -/
def addOnes : Nat → Dbl → Dbl
  | 0, t => t
  | n + 1, t => addOnes n (dadd t dOne)

/-- First-occurrence deduplication, fixing one of the unspecified group-by
output orders of the aggregation pipeline. -/
def firstKeys (l : List String) : List String :=
  l.foldl (fun acc s => if acc.contains s then acc else acc ++ [s]) []

/-- Unwound procedure codes of the collection in document order. -/
def allCodes (claims : List Claim) : List String :=
  claims.foldl (fun acc c => acc ++ c.procedureCodes) []

/-- Group-by-status aggregation with the $sort count: -1 stage of bootstrap
lines 79 to 82. -/
def statusBreakdownOf (claims : List Claim) : List (String × Int) :=
  sortByLe (fun a b => decide (b.2 ≤ a.2))
    ((firstKeys (claims.map Claim.status)).map
      (fun s => (s, (Int.ofNat (claims.countP (fun c => c.status == s))))))

/-- Unwind plus group-by-code aggregation of bootstrap lines 83 to 86. -/
def procedureCountsOf (claims : List Claim) : List (String × Int) :=
  (firstKeys (allCodes claims)).map
    (fun code => (code, Int.ofNat ((allCodes claims).count code)))

/-- Aggregate sum of totalAmount; the empty aggregation result falls back to
zero as on line 108. -/
def totalAmountOf (claims : List Claim) : Int := (claims.map Claim.totalAmount).sum

/-- Recomputation body of bootstrapIfNeeded, lines 72 to 120: rebuild the
procedure counters from scratch (delete all, insert the aggregation output)
and upsert the summary with fresh totals, statusCounts and meta. -/
def bootstrapCompute (startNow endNow : Int) (db : StatsDb) : StatsDb :=
  let statusCounts := fromEntries
    ((statusBreakdownOf db.claims).map
      (fun p => (if p.1 = "" then "unknown" else p.1, p.2)))
  ⟨db.claims,
   some ⟨⟨Int.ofNat db.claims.length, totalAmountOf db.claims⟩, statusCounts,
     ⟨endNow, endNow - startNow, "bootstrap"⟩⟩,
   procedureCountsOf db.claims⟩

/-- bootstrapIfNeeded from summary-updater.service.ts lines 59 to 124: a
no-op when a summary document exists and the procedure-count collection is
nonempty, otherwise the full recomputation; startNow and endNow are the two
wall-clock readings. -/
def bootstrapIfNeeded (startNow endNow : Int) (db : StatsDb) : StatsDb :=
  if db.summary.isSome && !db.procCounts.isEmpty then db
  else bootstrapCompute startNow endNow db

/-- Meta scrubber erasing only generatedAt, the single exception named by the
bootstrap idempotence claim. -/
def scrubGeneratedAt : Option SummaryDocS → Option SummaryDocS
  | some s => some ⟨s.totals, s.statusCounts, ⟨0, s.meta.durationMs, s.meta.source⟩⟩
  | none => none

/-- Meta scrubber erasing both wall-clock fields, generatedAt and durationMs. -/
def scrubVolatileMeta : Option SummaryDocS → Option SummaryDocS
  | some s => some ⟨s.totals, s.statusCounts, ⟨0, 0, s.meta.source⟩⟩
  | none => none

/-! Summary broadcaster (emitSummary of the stream service). -/

/-- Totals field of a raw summary document as seen by the broadcaster;
either key may be missing. -/
structure RawTotals where
  totalClaims : Option Int
  totalAmount : Option Int
deriving DecidableEq, Repr

/-- Legacy-shape payload stored under the data field. -/
structure LegacyData where
  totalClaims : Option Int
  totalAmount : Option Int
  statusBreakdown : Option (List (String × Int))
  topProcedures : Option (List (String × Int))
deriving DecidableEq, Repr

/-- Raw summary document delivered by the change stream to the broadcaster. -/
structure RawSummaryDoc where
  totals : Option RawTotals
  statusCounts : Option (List (String × Int))
  data : Option LegacyData
  meta : Option SummaryMeta
deriving DecidableEq, Repr

/-- Data part of the pushed payload: either the legacy data object forwarded
verbatim or the normalized object built from the materialized fields. -/
inductive WireData where
  | legacy (d : LegacyData)
  | built (totalClaims totalAmount : Int) (statusBreakdown : List (String × Int))
      (topProcedures : List (String × Int))
deriving DecidableEq, Repr

/-- Payload pushed to subscribers. -/
structure WirePayload where
  data : WireData
  meta : Option SummaryMeta
deriving DecidableEq, Repr

/-- Object.keys length test on the totals object. -/
def hasKeysRaw (t : RawTotals) : Bool := t.totalClaims.isSome || t.totalAmount.isSome

/-- Top-five facet query of the broadcaster: the procedure-count collection
sorted by count descending, limited to five. -/
def top5 (procDb : List (String × Int)) : List (String × Int) :=
  (sortByLe (fun a b => decide (b.2 ≤ a.2)) procDb).take 5

/-- emitSummary from the summary stream service: a document without
materialized totals or statusCounts but with legacy data is forwarded as-is;
otherwise the wire shape is built from the materialized fields, re-deriving
statusBreakdown sorted by count descending and refetching the top five
procedure facets (an empty list when that fetch fails, per its catch). -/
def emitSummary (procDb : List (String × Int)) (fetchOk : Bool)
    (doc : RawSummaryDoc) : WirePayload :=
  let totals := doc.totals.getD ⟨none, none⟩
  let statusCounts := doc.statusCounts.getD []
  let hasMaterialized := hasKeysRaw totals || !statusCounts.isEmpty
  match doc.data, hasMaterialized with
  | some d, false => ⟨WireData.legacy d, doc.meta⟩
  | _, _ =>
    ⟨WireData.built (totals.totalClaims.getD 0) (totals.totalAmount.getD 0)
      (sortByLe (fun a b => decide (b.2 ≤ a.2)) statusCounts)
      (if fetchOk then top5 procDb else []), doc.meta⟩

/-! Profiling admin (clearSlowOps of stats.service.ts). -/

/-- Result envelope returned by clearSlowOps. -/
structure ClearResult where
  deletedCount : Int
  cleared : Bool
deriving DecidableEq, Repr

/-- clearSlowOps from stats.service.ts lines 132 to 157, parameterized by the
outcomes of its external commands (disable profiler, drop collection,
re-enable profiler) and by the number of profiling entries the drop removes.
deletedCount starts at zero and is only ever reassigned zero; the drop error
is swallowed by its own catch, so cleared records only whether the disable
command succeeded; nothing reads profileEntries. -/
def clearSlowOps (profileDisableOk dropOk shouldEnableProfiler enableOk : Bool)
    (profileEntries : Nat) : ClearResult :=
  let deletedCount : Int := 0
  if profileDisableOk then ⟨deletedCount, true⟩ else ⟨deletedCount, false⟩

/-- Fixture insert delta carrying the double amount one and facet code
99213. -/
def dEvOne : InsertEvent := ⟨⟨some dOne, some "approved", some ["99213"]⟩, 100, 1⟩

/-- Fixture insert delta carrying the double amount 10^16, written in
canonical binary64 form as 5^16 times 2^16; together with two unit amounts
this is a pair on which binary64 accumulation is visibly order-dependent. -/
def dEvBig : InsertEvent := ⟨⟨some ⟨152587890625, 16⟩, some "approved", none⟩, 200, 1⟩

/-- Fixture empty delta-path state. -/
def exDeltaDb : DeltaStatsDb := ⟨none, []⟩

/-- Fixture stats state whose claims carry procedure codes, so a bootstrap
run repopulates the facet counters. -/
def exC6Db : StatsDb := ⟨[exClaim1], none, []⟩

/-- Fixture legacy payload with a statusBreakdown that is not sorted by
count descending and stale topProcedures. -/
def exLegacyData : LegacyData := ⟨some 5, some 500, some [("a", 1), ("b", 5)], some [("x", 2)]⟩

/-- Fixture legacy-shape summary document: no materialized fields, data set. -/
def exLegacyDoc : RawSummaryDoc := ⟨none, none, some exLegacyData, none⟩

/-- Fixture materialized summary document. -/
def exMatDoc : RawSummaryDoc :=
  ⟨some ⟨some 10, some 1000⟩, some [("a", 1), ("b", 5)], none, some ⟨1, 2, "change-stream"⟩⟩

/-- Fixture procedure-count collection of the broadcaster. -/
def exProcDb : List (String × Int) := [("p1", 1), ("p9", 9)]

/-! Theorems. -/

/-! Lemmas about the digit renderings. -/

theorem isDigitCh_digitChar10 (m : Nat) : isDigitCh (digitChar10 m) = true := by
  unfold digitChar10
  split <;> decide

theorem digitVal_digitChar10 {m : Nat} (h : m < 10) : digitVal (digitChar10 m) = m := by
  have hc : m = 0 ∨ m = 1 ∨ m = 2 ∨ m = 3 ∨ m = 4 ∨ m = 5 ∨ m = 6 ∨ m = 7 ∨ m = 8 ∨
      m = 9 := by omega
  rcases hc with h | h | h | h | h | h | h | h | h | h <;> subst h <;> decide

theorem isHexCh_hexCharL (m : Nat) : isHexCh (hexCharL m) = true := by
  unfold hexCharL
  split <;> decide

theorem hexVal_hexCharL {m : Nat} (h : m < 16) : hexVal (hexCharL m) = m := by
  have hc : m = 0 ∨ m = 1 ∨ m = 2 ∨ m = 3 ∨ m = 4 ∨ m = 5 ∨ m = 6 ∨ m = 7 ∨ m = 8 ∨
      m = 9 ∨ m = 10 ∨ m = 11 ∨ m = 12 ∨ m = 13 ∨ m = 14 ∨ m = 15 := by omega
  rcases hc with h | h | h | h | h | h | h | h | h | h | h | h | h | h | h | h <;>
    subst h <;> decide

theorem mem_padDigits_isDigit {k n : Nat} {c : Char} (h : c ∈ padDigits k n) :
    isDigitCh c = true := by
  induction k generalizing n with
  | zero => simp [padDigits] at h
  | succ k ih =>
    simp only [padDigits, List.mem_cons] at h
    rcases h with h | h
    · subst h; exact isDigitCh_digitChar10 _
    · exact ih h

theorem mem_padHex_isHex {k n : Nat} {c : Char} (h : c ∈ padHex k n) :
    isHexCh c = true := by
  induction k generalizing n with
  | zero => simp [padHex] at h
  | succ k ih =>
    simp only [padHex, List.mem_cons] at h
    rcases h with h | h
    · subst h; exact isHexCh_hexCharL _
    · exact ih h

theorem length_padHex (k n : Nat) : (padHex k n).length = k := by
  induction k generalizing n with
  | zero => rfl
  | succ k ih => simp [padHex, ih]

theorem readFixed_padDigits (k : Nat) :
    ∀ (acc n : Nat) (rest : List Char), n < 10 ^ k →
      readFixed k acc (padDigits k n ++ rest) = some (acc * 10 ^ k + n, rest) := by
  induction k with
  | zero =>
    intro acc n rest h
    have hn : n = 0 := by omega
    subst hn
    simp [readFixed, padDigits]
  | succ k ih =>
    intro acc n rest h
    have hp : 0 < 10 ^ k := Nat.pos_pow_of_pos k (by omega)
    have hd : n / 10 ^ k < 10 := by
      apply Nat.div_lt_of_lt_mul
      rw [← pow_succ]
      exact h
    have hr : n % 10 ^ k < 10 ^ k := Nat.mod_lt _ hp
    have hm := Nat.div_add_mod n (10 ^ k)
    simp only [padDigits, List.cons_append, readFixed, isDigitCh_digitChar10, if_true,
      List.append_eq]
    rw [digitVal_digitChar10 hd, ih _ _ _ hr]
    have heq : (acc * 10 + n / 10 ^ k) * 10 ^ k + n % 10 ^ k = acc * 10 ^ (k + 1) + n := by
      conv_rhs => rw [← hm]
      ring
    rw [heq]

theorem hexFold_padHex (k : Nat) :
    ∀ (acc n : Nat), n < 16 ^ k →
      List.foldl (fun acc c => acc * 16 + hexVal c) acc (padHex k n) = acc * 16 ^ k + n := by
  induction k with
  | zero =>
    intro acc n h
    have hn : n = 0 := by omega
    subst hn
    simp [padHex]
  | succ k ih =>
    intro acc n h
    have hp : 0 < 16 ^ k := Nat.pos_pow_of_pos k (by omega)
    have hd : n / 16 ^ k < 16 := by
      apply Nat.div_lt_of_lt_mul
      rw [← pow_succ]
      exact h
    have hr : n % 16 ^ k < 16 ^ k := Nat.mod_lt _ hp
    have hm := Nat.div_add_mod n (16 ^ k)
    simp only [padHex, List.foldl_cons]
    rw [hexVal_hexCharL hd, ih _ _ hr]

    conv_rhs => rw [← hm]
    ring

theorem hexValue_padHex {n : Nat} (h : n < 16 ^ 24) : hexValue (padHex 24 n) = n := by
  unfold hexValue
  rw [hexFold_padHex 24 0 n h]
  simp

theorem isValidObjectId_padHex (n : Nat) : isValidObjectId (padHex 24 n) = true := by
  unfold isValidObjectId
  rw [length_padHex]
  simp only [beq_self_eq_true, Bool.true_and]
  rw [List.all_eq_true]
  intro c hc
  exact mem_padHex_isHex hc

theorem expectChar_cons (c : Char) (rest : List Char) :
    expectChar c (c :: rest) = some rest := by
  simp [expectChar]

theorem readFixed_pad4 {n : Nat} (h : n ≤ 9999) (rest : List Char) :
    readFixed 4 0 (padDigits 4 n ++ rest) = some (n, rest) := by
  rw [readFixed_padDigits 4 0 n rest (by omega)]
  simp

theorem readFixed_pad2 {n : Nat} (h : n ≤ 99) (rest : List Char) :
    readFixed 2 0 (padDigits 2 n ++ rest) = some (n, rest) := by
  rw [readFixed_padDigits 2 0 n rest (by omega)]
  simp

theorem readFixed_pad3 {n : Nat} (h : n ≤ 999) (rest : List Char) :
    readFixed 3 0 (padDigits 3 n ++ rest) = some (n, rest) := by
  rw [readFixed_padDigits 3 0 n rest (by omega)]
  simp

theorem parseIsoChars_isoChars {d : JsDate} (h : d.Valid) :
    parseIsoChars (isoChars d) = some d := by
  obtain ⟨h1, h2, h3, h4, h5, h6, h7, h8, h9⟩ := h
  simp only [parseIsoChars, isoChars, readFixed_pad4 h1,
    readFixed_pad2 (show d.month ≤ 99 by omega), readFixed_pad2 (show d.day ≤ 99 by omega),
    readFixed_pad2 (show d.hour ≤ 99 by omega), readFixed_pad2 (show d.minute ≤ 99 by omega),
    readFixed_pad2 (show d.second ≤ 99 by omega), readFixed_pad3 h9, expectChar_cons]
  rw [if_pos ⟨trivial, h2, h3, h4, h5, h6, h7, h8⟩]

theorem splitOnChar_no_sep {sep : Char} {l : List Char} (h : ∀ c ∈ l, c ≠ sep) :
    splitOnChar sep l = [l] := by
  induction l with
  | nil => rfl
  | cons c cs ih =>
    have hc : c ≠ sep := h c (List.mem_cons_self c cs)
    have hrest : ∀ x ∈ cs, x ≠ sep := fun x hx => h x (List.mem_cons_of_mem c hx)
    simp only [splitOnChar, if_neg hc, ih hrest]

theorem splitOnChar_append_sep {sep : Char} {a : List Char} (b : List Char)
    (h : ∀ c ∈ a, c ≠ sep) :
    splitOnChar sep (a ++ sep :: b) = a :: splitOnChar sep b := by
  induction a with
  | nil => simp [splitOnChar]
  | cons c cs ih =>
    have hc : c ≠ sep := h c (List.mem_cons_self c cs)
    have hrest : ∀ x ∈ cs, x ≠ sep := fun x hx => h x (List.mem_cons_of_mem c hx)
    simp only [List.cons_append, splitOnChar, if_neg hc, List.append_eq, ih hrest]

theorem isoChars_no_pipe (d : JsDate) : ∀ c ∈ isoChars d, c ≠ '|' := by
  intro c hc
  simp only [isoChars, List.mem_append, List.mem_cons, List.mem_singleton,
    List.not_mem_nil, or_false] at hc
  rcases hc with h | h | h | h | h | h | h | h | h | h | h | h | h | h
  all_goals first
    | (subst h; decide)
    | (intro he
       subst he
       exact absurd (mem_padDigits_isDigit h) (by decide))

theorem padHex_no_pipe {n : Nat} : ∀ c ∈ padHex 24 n, c ≠ '|' := by
  intro c hc he
  have := mem_padHex_isHex hc
  subst he
  simp [isHexCh] at this

theorem isoChars_ne_nil (d : JsDate) : isoChars d ≠ [] := by
  simp only [isoChars, padDigits]
  intro h
  simp at h

theorem padHex24_ne_nil (n : Nat) : padHex 24 n ≠ [] := by
  simp only [padHex]
  intro h
  simp at h

theorem parseCursor_encodeCursor {d : JsDate} {id : Nat} (hd : d.Valid)
    (hid : id < 16 ^ 24) : parseCursor (encodeCursor d id) = some (d, id) := by
  unfold parseCursor encodeCursor parseCursorChars
  have hsplit : splitOnChar '|' (String.mk (isoChars d ++ '|' :: padHex 24 id)).toList =
      isoChars d :: splitOnChar '|' (padHex 24 id) := by
    have : (String.mk (isoChars d ++ '|' :: padHex 24 id)).toList =
        isoChars d ++ '|' :: padHex 24 id := rfl
    rw [this, splitOnChar_append_sep _ (isoChars_no_pipe d)]
  rw [hsplit, splitOnChar_no_sep padHex_no_pipe]
  have hcond : ¬(isoChars d = [] ∨ padHex 24 id = [] ∨
      isValidObjectId (padHex 24 id) = false) := by
    push_neg
    refine ⟨isoChars_ne_nil d, padHex24_ne_nil id, ?_⟩
    rw [isValidObjectId_padHex]
    simp
  simp only [if_neg hcond, parseIsoChars_isoChars hd, hexValue_padHex hid]

/-- C3: encoding then decoding a cursor returns the original pair for every
valid date and in-range ObjectId, and the decoder, which is total by
construction (it returns an Option and never throws), yields no cursor
whenever the id portion of the split token fails the ObjectId validity check
or the date portion fails to parse. -/
theorem claim_C3_cursor_codec :
    (∀ (d : JsDate) (id : Nat), d.Valid → id < 16 ^ 24 →
        parseCursor (encodeCursor d id) = some (d, id)) ∧
    (∀ (s : String) (dateStr idStr : List Char) (rest : List (List Char)),
        splitOnChar '|' s.toList = dateStr :: idStr :: rest →
        isValidObjectId idStr = false → parseCursor s = none) ∧
    (∀ (s : String) (dateStr idStr : List Char) (rest : List (List Char)),
        splitOnChar '|' s.toList = dateStr :: idStr :: rest →
        parseIsoChars dateStr = none → parseCursor s = none) := by
  refine ⟨fun d id hd hid => parseCursor_encodeCursor hd hid, ?_, ?_⟩
  · intro s dateStr idStr rest hsplit hbad
    unfold parseCursor parseCursorChars
    rw [hsplit]
    simp only [if_pos (Or.inr (Or.inr hbad))]
  · intro s dateStr idStr rest hsplit hbad
    unfold parseCursor parseCursorChars
    rw [hsplit]
    by_cases hc : dateStr = [] ∨ idStr = [] ∨ isValidObjectId idStr = false
    · simp only [if_pos hc]
    · simp only [if_neg hc, hbad]

/-- Witness for C3: a concrete round trip, a concrete token whose id portion
is invalid, and a concrete token whose date portion does not parse. -/
theorem claim_C3_cursor_codec_witness :
    parseCursor (encodeCursor ⟨2024, 3, 15, 10, 30, 0, 123⟩ 1234605616436508552) =
      some (⟨2024, 3, 15, 10, 30, 0, 123⟩, 1234605616436508552) ∧
    parseCursor "2024-03-15T10:30:00.123Z|zzzz" = none ∧
    parseCursor "garbage|0123456789abcdef01234567" = none := by
  refine ⟨claim_C3_cursor_codec.1 _ _ (by decide) (by decide), ?_, ?_⟩
  · exact claim_C3_cursor_codec.2.1 "2024-03-15T10:30:00.123Z|zzzz"
      "2024-03-15T10:30:00.123Z".toList "zzzz".toList [] (by decide) (by decide)
  · exact claim_C3_cursor_codec.2.2 "garbage|0123456789abcdef01234567"
      "garbage".toList "0123456789abcdef01234567".toList [] (by decide) (by decide)

theorem length_insertSorted (le : α → α → Bool) (x : α) (l : List α) :
    (insertSorted le x l).length = l.length + 1 := by
  induction l with
  | nil => rfl
  | cons y ys ih =>
    unfold insertSorted
    split
    · rfl
    · simp [ih]

theorem length_sortByLe (le : α → α → Bool) (l : List α) :
    (sortByLe le l).length = l.length := by
  induction l with
  | nil => rfl
  | cons x xs ih =>
    unfold sortByLe
    rw [length_insertSorted, ih]
    rfl

theorem jsOrNat_pos (o : Option Nat) {dflt : Nat} (h : 0 < dflt) :
    0 < jsOrNat o dflt := by
  unfold jsOrNat
  cases o with
  | none => exact h
  | some n =>
    by_cases hn : n = 0
    · simp [hn, h]
    · simp [hn]
      omega

/-- Helper: the returned cursor-mode page is the pageSize prefix of the
stream, whether or not the extra probe row exists. -/
theorem cursor_items_take {α : Type} (p : Nat) (stream : List α) :
    (if decide (p < (stream.take (p + 1)).length) = true
      then (stream.take (p + 1)).take p
      else stream.take (p + 1)) = stream.take p := by
  have hlen : (stream.take (p + 1)).length = min (p + 1) stream.length :=
    List.length_take _ _
  have hm : decide (p < (stream.take (p + 1)).length) = decide (p < stream.length) :=
    decide_eq_decide.mpr (by rw [hlen]; omega)
  by_cases hlt : p < stream.length
  · rw [hm, if_pos (decide_eq_true hlt), List.take_take]
    congr 1
    omega
  · rw [hm, if_neg (by simp [hlt])]
    have hle : stream.length ≤ p := by omega
    rw [List.take_of_length_le hle, List.take_of_length_le (by omega)]

/-- Helper describing the cursor-mode branch of listClaims. -/
theorem listClaims_cursor_shape (db : List Claim) (qr : ClaimsQuery) (s : String)
    (hq : qr.cursor = some s) :
    listClaims db qr =
      ⟨if decide (jsOrNat qr.pageSize 50 <
            ((sortByLe (cursorSortLe (sortDirOf qr)) (db.filter (claimsFilterPred qr))).take
              (jsOrNat qr.pageSize 50 + 1)).length)
        then ((sortByLe (cursorSortLe (sortDirOf qr)) (db.filter (claimsFilterPred qr))).take
              (jsOrNat qr.pageSize 50 + 1)).take (jsOrNat qr.pageSize 50)
        else (sortByLe (cursorSortLe (sortDirOf qr)) (db.filter (claimsFilterPred qr))).take
              (jsOrNat qr.pageSize 50 + 1),
       ⟨jsOrNat qr.page 1, jsOrNat qr.pageSize 50, none, "serviceDate",
        if sortDirOf qr = 1 then "asc" else "desc",
        some (decide (jsOrNat qr.pageSize 50 <
          ((sortByLe (cursorSortLe (sortDirOf qr)) (db.filter (claimsFilterPred qr))).take
            (jsOrNat qr.pageSize 50 + 1)).length)),
        if decide (jsOrNat qr.pageSize 50 <
            ((sortByLe (cursorSortLe (sortDirOf qr)) (db.filter (claimsFilterPred qr))).take
              (jsOrNat qr.pageSize 50 + 1)).length)
        then
          match (((sortByLe (cursorSortLe (sortDirOf qr)) (db.filter (claimsFilterPred qr))).take
              (jsOrNat qr.pageSize 50 + 1)).take (jsOrNat qr.pageSize 50)).getLast? with
          | some last => some (encodeCursor last.serviceDate last.id)
          | none => none
        else none⟩⟩ := by
  unfold listClaims sortByOf
  rw [hq]
  simp only [Option.isSome_some, if_true]
  split
  · rfl
  · rfl

/-- C1: with a cursor parameter supplied, the effective sort is (serviceDate,
id) in the requested direction regardless of the requested sortBy (the result
stream cursorStream is ordered that way and meta reports serviceDate), the
query fetches pageSize plus one rows so that hasMore holds exactly when the
(pageSize plus 1)-th row of the stream exists, the extra row is excluded from
the returned page, nextCursor is computed from the last returned row when
hasMore holds, and nextCursor is null when the extra row does not exist. -/
theorem claim_C1_cursor_pagination (db : List Claim) (qr : ClaimsQuery) (s : String)
    (hq : qr.cursor = some s) :
    (listClaims db qr).meta.sortBy = "serviceDate" ∧
    (listClaims db qr).meta.hasMore =
      some (decide (jsOrNat qr.pageSize 50 < (cursorStream db qr).length)) ∧
    (listClaims db qr).data = (cursorStream db qr).take (jsOrNat qr.pageSize 50) ∧
    ((listClaims db qr).meta.hasMore = some true →
      ∃ last, (listClaims db qr).data.getLast? = some last ∧
        (listClaims db qr).meta.nextCursor = some (encodeCursor last.serviceDate last.id)) ∧
    ((listClaims db qr).meta.hasMore = some false →
      (listClaims db qr).meta.nextCursor = none) := by
  rw [listClaims_cursor_shape db qr s hq]
  dsimp only
  rw [show cursorStream db qr =
    sortByLe (cursorSortLe (sortDirOf qr)) (db.filter (claimsFilterPred qr)) from rfl]
  set p := jsOrNat qr.pageSize 50 with hpdef
  set stream := sortByLe (cursorSortLe (sortDirOf qr)) (db.filter (claimsFilterPred qr))
    with hsdef
  have hp : 0 < p := jsOrNat_pos _ (by omega)
  have hlen : (stream.take (p + 1)).length = min (p + 1) stream.length :=
    List.length_take _ _
  have hm : decide (p < (stream.take (p + 1)).length) = decide (p < stream.length) :=
    decide_eq_decide.mpr (by rw [hlen]; omega)
  have hdata :
      (if decide (p < (stream.take (p + 1)).length) = true
        then (stream.take (p + 1)).take p
        else stream.take (p + 1)) = stream.take p := cursor_items_take p stream
  refine ⟨rfl, by rw [hm], hdata, ?_, ?_⟩
  · intro hsome
    rw [hm] at hsome
    have hlt : p < stream.length := of_decide_eq_true (Option.some.inj hsome)
    have hne : stream.take p ≠ [] := by
      intro he
      have hlen2 := List.length_take p stream
      rw [he] at hlen2
      simp only [List.length_nil] at hlen2
      omega
    obtain ⟨last, hlast⟩ := Option.isSome_iff_exists.mp (List.getLast?_isSome.mpr hne)
    have htt : (stream.take (p + 1)).take p = stream.take p := by
      rw [List.take_take]
      congr 1
      omega
    refine ⟨last, ?_, ?_⟩
    · rw [hdata, hlast]
    · rw [hm, if_pos (decide_eq_true hlt), htt, hlast]
  · intro hsome
    rw [hm] at hsome
    have hlt : ¬ p < stream.length := of_decide_eq_false (Option.some.inj hsome)
    rw [hm, if_neg (by simp [hlt])]

/-- Witness for C1: a three-row collection queried with an empty cursor, a
non-serviceDate sortBy request and page size two; the sort is still forced to
serviceDate, two rows come back, the third is excluded, and nextCursor encodes
the last returned row. -/
theorem claim_C1_cursor_pagination_witness :
    (listClaims exDb exQcursor).meta.sortBy = "serviceDate" ∧
    (listClaims exDb exQcursor).meta.hasMore = some true ∧
    (listClaims exDb exQcursor).data = [exClaim3, exClaim2] ∧
    (listClaims exDb exQcursor).meta.nextCursor = some (encodeCursor exDate2 2) := by
  have h := claim_C1_cursor_pagination exDb exQcursor "" rfl
  exact ⟨h.1, by decide, by decide, by decide⟩

/-- C2: a decoded cursor (lastDate, lastId) contributes exactly one boundary
clause to the compiled filter; in descending order that clause holds of a
document precisely when serviceDate is before lastDate or serviceDate equals
lastDate and id is below lastId, and in ascending order precisely the
symmetric predicate with the comparisons flipped. -/
theorem claim_C2_boundary_predicate (qr : ClaimsQuery) (s : String) (d : JsDate) (i : Nat)
    (hq : qr.cursor = some s) (hne : s ≠ "") (hp : parseCursor s = some (d, i)) :
    cursorFilterOpt qr = some (cursorBoundary (sortDirOf qr) d i) ∧
    (∀ c : Claim, cursorBoundary (-1) d i c = true ↔
      (c.serviceDate.key < d.key ∨ (c.serviceDate.key = d.key ∧ c.id < i))) ∧
    (∀ c : Claim, cursorBoundary 1 d i c = true ↔
      (d.key < c.serviceDate.key ∨ (c.serviceDate.key = d.key ∧ i < c.id))) ∧
    cursorBoundary (sortDirOf qr) d i ∈ andFiltersFull qr := by
  have hopt : cursorFilterOpt qr = some (cursorBoundary (sortDirOf qr) d i) := by
    unfold cursorFilterOpt
    rw [hq]
    dsimp only
    rw [if_neg hne, hp]
  refine ⟨hopt, ?_, ?_, ?_⟩
  · intro c
    unfold cursorBoundary
    rw [if_pos rfl]
    simp [Bool.or_eq_true, Bool.and_eq_true, decide_eq_true_eq]
  · intro c
    unfold cursorBoundary
    rw [if_neg (by decide)]
    simp [Bool.or_eq_true, Bool.and_eq_true, decide_eq_true_eq]
  · unfold andFiltersFull
    rw [hopt]
    simp [List.mem_append]

/-- Witness for C2: a concrete decodable cursor token; the boundary clause is
added to the filter and its descending form evaluates as the specified strict
predecessor predicate on a concrete document. -/
theorem claim_C2_boundary_predicate_witness :
    cursorFilterOpt exQboundary = some (cursorBoundary (sortDirOf exQboundary) exDate2 2) ∧
    (cursorBoundary (-1) exDate2 2 exClaim1 = true ↔
      (exClaim1.serviceDate.key < exDate2.key ∨
        (exClaim1.serviceDate.key = exDate2.key ∧ exClaim1.id < 2))) ∧
    cursorBoundary (sortDirOf exQboundary) exDate2 2 ∈ andFiltersFull exQboundary := by
  have h := claim_C2_boundary_predicate exQboundary (encodeCursor exDate2 2) exDate2 2 rfl
    (by decide) (by decide)
  exact ⟨h.1, h.2.1 exClaim1, h.2.2.2⟩

/-- Helper describing the offset-mode branch of listClaims. -/
theorem listClaims_offset_shape (db : List Claim) (qr : ClaimsQuery)
    (hq : qr.cursor = none) :
    listClaims db qr =
      ⟨((sortByLe (offsetSortLe (sortByOf qr) (sortDirOf qr))
          (db.filter (claimsFilterPred qr))).drop
            ((jsOrNat qr.page 1 - 1) * jsOrNat qr.pageSize 50)).take (jsOrNat qr.pageSize 50),
       ⟨jsOrNat qr.page 1, jsOrNat qr.pageSize 50,
        if includeTotalOf qr then some (db.filter (claimsFilterPred qr)).length else none,
        sortByOf qr, if sortDirOf qr = 1 then "asc" else "desc", none, none⟩⟩ := by
  unfold listClaims
  rw [hq]
  rfl

/-- C4: without a cursor the page never exceeds pageSize rows, and the total
field is the exact count of documents matching the same compiled filter when
includeTotal is requested and null otherwise. -/
theorem claim_C4_offset_total (db : List Claim) (qr : ClaimsQuery)
    (hq : qr.cursor = none) :
    (listClaims db qr).data.length ≤ jsOrNat qr.pageSize 50 ∧
    (includeTotalOf qr = true →
      (listClaims db qr).meta.total = some ((db.filter (claimsFilterPred qr)).length)) ∧
    (includeTotalOf qr = false → (listClaims db qr).meta.total = none) := by
  rw [listClaims_offset_shape db qr hq]
  dsimp only
  refine ⟨?_, ?_, ?_⟩
  · rw [List.length_take]
    exact Nat.min_le_left _ _
  · intro h
    rw [h]
    simp
  · intro h
    rw [h]
    simp

/-- Witness for C4: a filtered offset query over the fixture collection with
includeTotal requested returns a page of at most two rows and the exact count
two, and the same query without includeTotal returns a null total. -/
theorem claim_C4_offset_total_witness :
    (listClaims exDb exQoffset).data.length ≤ 2 ∧
    (listClaims exDb exQoffset).meta.total = some 2 ∧
    (listClaims exDb exQoffsetNT).meta.total = none := by
  have h1 := claim_C4_offset_total exDb exQoffset rfl
  have h2 := claim_C4_offset_total exDb exQoffsetNT rfl
  refine ⟨h1.1, ?_, h2.2.2 (by decide)⟩
  rw [h1.2.1 (by decide)]
  decide

/-- C8: a point lookup with an id that fails the ObjectId validity check
returns an absent result and performs no database query; the lookup is total,
so no parse exception can reach the caller. -/
theorem claim_C8_invalid_id_lookup (db : List Claim) (id : String)
    (h : isValidObjectId id.toList = false) :
    getClaim db id = ⟨none, 0⟩ := by
  unfold getClaim
  rw [if_pos h]

/-- Witness for C8: a concrete malformed id on the fixture collection. -/
theorem claim_C8_invalid_id_lookup_witness :
    getClaim exDb "not-a-valid-objectid" = ⟨none, 0⟩ :=
  claim_C8_invalid_id_lookup exDb "not-a-valid-objectid" (by decide)

/-- C9: a present but empty or undecodable cursor still selects cursor mode:
no boundary clause is compiled, the sort is forced to (serviceDate, id), the
hasMore flag is computed, the returned rows are the first page of the full
stream, and the page parameter has no effect on the returned rows, hasMore or
nextCursor. -/
theorem claim_C9_degenerate_cursor (db : List Claim) (qr : ClaimsQuery) (s : String)
    (hq : qr.cursor = some s) (hbad : s = "" ∨ parseCursor s = none) :
    cursorFilterOpt qr = none ∧
    (listClaims db qr).meta.sortBy = "serviceDate" ∧
    (∃ b, (listClaims db qr).meta.hasMore = some b) ∧
    (listClaims db qr).data = (cursorStream db qr).take (jsOrNat qr.pageSize 50) ∧
    (∀ p' : Option Nat,
      (listClaims db { qr with page := p' }).data = (listClaims db qr).data ∧
      (listClaims db { qr with page := p' }).meta.hasMore =
        (listClaims db qr).meta.hasMore ∧
      (listClaims db { qr with page := p' }).meta.nextCursor =
        (listClaims db qr).meta.nextCursor) := by
  refine ⟨?_, ?_, ?_, ?_, ?_⟩
  · unfold cursorFilterOpt
    rw [hq]
    dsimp only
    rcases hbad with hb | hb
    · rw [if_pos hb]
    · by_cases he : s = ""
      · rw [if_pos he]
      · rw [if_neg he, hb]
  · rw [listClaims_cursor_shape db qr s hq]
  · rw [listClaims_cursor_shape db qr s hq]
    exact ⟨_, rfl⟩
  · rw [listClaims_cursor_shape db qr s hq]
    exact cursor_items_take _ _
  · intro p'
    rw [listClaims_cursor_shape db qr s hq,
      listClaims_cursor_shape db { qr with page := p' } s hq]
    exact ⟨rfl, rfl, rfl⟩

/-- Witness for C9: the empty-cursor fixture query compiles no boundary
filter, returns the first page, and changing the page parameter changes
nothing but the echoed page number. -/
theorem claim_C9_degenerate_cursor_witness :
    cursorFilterOpt exQcursor = none ∧
    (listClaims exDb exQcursor).data = [exClaim3, exClaim2] ∧
    (listClaims exDb { exQcursor with page := some 5 }).data =
      (listClaims exDb exQcursor).data := by
  have h := claim_C9_degenerate_cursor exDb exQcursor "" rfl (Or.inl rfl)
  exact ⟨h.1, by decide, (h.2.2.2.2 (some 5)).1⟩

theorem dadd_dZero_dOne : dadd dZero dOne = dOne := by decide

theorem lookupCount_incKey_one (l : List (String × Dbl)) (key k : String) :
    lookupCount (incKey l key dOne) k =
      if key = k then dadd (lookupCount l k) dOne else lookupCount l k := by
  induction l with
  | nil =>
    by_cases h : key = k
    · subst h
      simp [incKey, lookupCount, dadd_dZero_dOne]
    · simp [incKey, lookupCount, h]
  | cons p rest ih =>
    obtain ⟨k', v'⟩ := p
    by_cases h1 : k' = key
    · subst h1
      by_cases h2 : k' = k
      · subst h2
        simp [incKey, lookupCount]
      · simp [incKey, lookupCount, h2]
    · by_cases h2 : k' = k
      · subst h2
        have hk : ¬ key = k' := fun he => h1 he.symm
        simp [incKey, lookupCount, h1, hk]
      · simp [incKey, lookupCount, h1, h2, ih]

theorem addOnes_add (a b : Nat) (t : Dbl) :
    addOnes (a + b) t = addOnes b (addOnes a t) := by
  induction a generalizing t with
  | zero => simp [addOnes]
  | succ a ih =>
    have hs : a + 1 + b = (a + b) + 1 := by omega
    rw [hs]
    show addOnes (a + b) (dadd t dOne) = addOnes b (addOnes (a + 1) t)
    rw [ih]
    rfl

theorem lookupCount_foldl_incKey (codes : List String) (l : List (String × Dbl))
    (k : String) :
    lookupCount (codes.foldl (fun acc c => incKey acc c dOne) l) k =
      addOnes (codes.count k) (lookupCount l k) := by
  induction codes generalizing l with
  | nil => simp [addOnes]
  | cons c cs ih =>
    simp only [List.foldl_cons]
    rw [ih]
    by_cases h : c = k
    · subst h
      rw [lookupCount_incKey_one, if_pos rfl, List.count_cons_self]
      rfl
    · rw [lookupCount_incKey_one, if_neg h]
      have hc : (c :: cs).count k = cs.count k := by
        rw [List.count_cons]
        simp [beq_iff_eq, h, Ne.symm h]
      rw [hc]

theorem totalsOf_applyInsert (now dur : Int) (doc : InsertDoc) (db : DeltaStatsDb) :
    totalsOf (applyInsert now dur doc db) =
      ⟨dadd (totalsOf db).totalClaims dOne,
       dadd (totalsOf db).totalAmount (insertAmount doc)⟩ := by
  unfold applyInsert totalsOf
  cases hdb : db.summary <;> rfl

theorem statusCountOf_applyInsert (now dur : Int) (doc : InsertDoc) (db : DeltaStatsDb)
    (k : String) :
    statusCountOf (applyInsert now dur doc db) k =
      if insertStatus doc = k then dadd (statusCountOf db k) dOne
      else statusCountOf db k := by
  unfold applyInsert statusCountOf
  cases hdb : db.summary <;> simp [lookupCount_incKey_one, lookupCount, dadd_dZero_dOne]

theorem procCountOf_applyInsert (now dur : Int) (doc : InsertDoc) (db : DeltaStatsDb)
    (code : String) :
    procCountOf (applyInsert now dur doc db) code =
      addOnes ((insertCodes doc).count code) (procCountOf db code) := by
  unfold applyInsert procCountOf
  dsimp only
  rw [lookupCount_foldl_incKey]

theorem totalClaims_applyEvents (db : DeltaStatsDb) (es : List InsertEvent) :
    (totalsOf (applyEvents db es)).totalClaims =
      addOnes es.length ((totalsOf db).totalClaims) := by
  induction es generalizing db with
  | nil => simp [applyEvents, addOnes]
  | cons e es ih =>
    show (totalsOf (applyEvents (applyInsert e.now e.dur e.doc db) es)).totalClaims = _
    rw [ih, totalsOf_applyInsert]
    rfl

theorem statusCountOf_applyEvents (db : DeltaStatsDb) (es : List InsertEvent)
    (k : String) :
    statusCountOf (applyEvents db es) k =
      addOnes (es.countP (fun e => insertStatus e.doc == k)) (statusCountOf db k) := by
  induction es generalizing db with
  | nil => simp [applyEvents, addOnes]
  | cons e es ih =>
    show statusCountOf (applyEvents (applyInsert e.now e.dur e.doc db) es) k = _
    rw [ih, statusCountOf_applyInsert]
    by_cases h : insertStatus e.doc = k
    · rw [if_pos h]
      have hc : (e :: es).countP (fun e => insertStatus e.doc == k) =
          es.countP (fun e => insertStatus e.doc == k) + 1 := by
        rw [List.countP_cons]
        simp [beq_iff_eq, h]
      rw [hc]
      rfl
    · rw [if_neg h]
      have hc : (e :: es).countP (fun e => insertStatus e.doc == k) =
          es.countP (fun e => insertStatus e.doc == k) := by
        rw [List.countP_cons]
        simp [beq_iff_eq, h]
      rw [hc]

theorem procCountOf_applyEvents (db : DeltaStatsDb) (es : List InsertEvent)
    (code : String) :
    procCountOf (applyEvents db es) code =
      addOnes ((es.map (fun e => (insertCodes e.doc).count code)).sum)
        (procCountOf db code) := by
  induction es generalizing db with
  | nil => simp [applyEvents, addOnes]
  | cons e es ih =>
    show procCountOf (applyEvents (applyInsert e.now e.dur e.doc db) es) code = _
    rw [ih, procCountOf_applyInsert]
    simp only [List.map_cons, List.sum_cons]
    rw [← addOnes_add]

/-- Counterexample for C5 as stated: three insert deltas with double amounts
10^16, one and one, applied in two permuted orders. Binary64 accumulation
gives 10^16 in one order (each added one lands on a tie and rounds to the
even neighbour, 10^16 itself) and 10^16 plus 2 in the other (the ones
combine first and their sum survives), so the stored totalAmount differs
between permutations of the same delta multiset. -/
theorem claim_C5_counterexample :
    [dEvBig, dEvOne, dEvOne].Perm [dEvOne, dEvOne, dEvBig] ∧
    (totalsOf (applyEvents exDeltaDb [dEvBig, dEvOne, dEvOne])).totalAmount ≠
      (totalsOf (applyEvents exDeltaDb [dEvOne, dEvOne, dEvBig])).totalAmount := by
  constructor
  · decide
  · decide

/-- C5 amended: applying a finite multiset of insert deltas in any order
yields the same stored totalClaims, the same status counter for every status
key and the same facet counter for every procedure code, because each of
these fields receives the identical update, a binary64 increment of one, the
same number of times under any permutation. The stored totalAmount, by
contrast, is a binary64 accumulation in application order and is not
order-independent (claim_C5_counterexample). -/
theorem claim_C5_delta_commutes (db : DeltaStatsDb) (es1 es2 : List InsertEvent)
    (h : es1.Perm es2) :
    (totalsOf (applyEvents db es1)).totalClaims =
      (totalsOf (applyEvents db es2)).totalClaims ∧
    (∀ k, statusCountOf (applyEvents db es1) k = statusCountOf (applyEvents db es2) k) ∧
    (∀ code, procCountOf (applyEvents db es1) code =
      procCountOf (applyEvents db es2) code) := by
  refine ⟨?_, ?_, ?_⟩
  · rw [totalClaims_applyEvents, totalClaims_applyEvents, h.length_eq]
  · intro k
    rw [statusCountOf_applyEvents, statusCountOf_applyEvents,
      h.countP_eq (fun e => insertStatus e.doc == k)]
  · intro code
    rw [procCountOf_applyEvents, procCountOf_applyEvents,
      (h.map (fun e => (insertCodes e.doc).count code)).sum_eq]

/-- Witness for the amended C5: two concrete insert deltas applied to an
empty stats state in both orders agree on the stored totalClaims, on the
approved status counter and on the facet counter of code 99213. -/
theorem claim_C5_delta_commutes_witness :
    (totalsOf (applyEvents exDeltaDb [dEvBig, dEvOne])).totalClaims =
      (totalsOf (applyEvents exDeltaDb [dEvOne, dEvBig])).totalClaims ∧
    statusCountOf (applyEvents exDeltaDb [dEvBig, dEvOne]) "approved" =
      statusCountOf (applyEvents exDeltaDb [dEvOne, dEvBig]) "approved" ∧
    procCountOf (applyEvents exDeltaDb [dEvBig, dEvOne]) "99213" =
      procCountOf (applyEvents exDeltaDb [dEvOne, dEvBig]) "99213" := by
  have h := claim_C5_delta_commutes exDeltaDb [dEvBig, dEvOne] [dEvOne, dEvBig]
    (List.Perm.swap dEvOne dEvBig [])
  exact ⟨h.1, h.2.1 "approved", h.2.2 "99213"⟩

/-- Helper: bootstrap is a no-op when a summary document exists and the
procedure-count collection is nonempty. -/
theorem bootstrapIfNeeded_noop (s e : Int) (db : StatsDb)
    (h1 : db.summary.isSome = true) (h2 : db.procCounts ≠ []) :
    bootstrapIfNeeded s e db = db := by
  have hc : (db.summary.isSome && !db.procCounts.isEmpty) = true := by
    rw [h1]
    cases hpc : db.procCounts with
    | nil => exact absurd hpc h2
    | cons a l => rfl
  unfold bootstrapIfNeeded
  rw [if_pos hc]

/-- Counterexample for C6: on a database with no summary, no procedure
counts and an empty claims collection, both bootstrap runs recompute, and the
two stored summaries differ in meta.durationMs (5 versus 7 here), not only in
meta.generatedAt; byte-for-byte identity up to generatedAt alone fails. -/
theorem claim_C6_counterexample :
    scrubGeneratedAt
        (bootstrapIfNeeded 10 17 (bootstrapIfNeeded 0 5 ⟨[], none, []⟩)).summary ≠
      scrubGeneratedAt (bootstrapIfNeeded 0 5 (⟨[], none, []⟩ : StatsDb)).summary := by
  decide

/-- C6 amended: running bootstrap twice with no intervening inserts leaves
the stored summary byte-for-byte identical except for the two wall-clock meta
fields generatedAt and durationMs; moreover, whenever the first run leaves a
summary present and at least one procedure count, the second run is a no-op
and the whole state, generatedAt included, is bit-identical. -/
theorem claim_C6_bootstrap_idempotent (db : StatsDb) (s1 e1 s2 e2 : Int) :
    scrubVolatileMeta (bootstrapIfNeeded s2 e2 (bootstrapIfNeeded s1 e1 db)).summary =
      scrubVolatileMeta (bootstrapIfNeeded s1 e1 db).summary ∧
    ((bootstrapIfNeeded s1 e1 db).summary.isSome = true →
      (bootstrapIfNeeded s1 e1 db).procCounts ≠ [] →
      bootstrapIfNeeded s2 e2 (bootstrapIfNeeded s1 e1 db) = bootstrapIfNeeded s1 e1 db) := by
  constructor
  · by_cases hg : (db.summary.isSome && !db.procCounts.isEmpty) = true
    · have h1 : bootstrapIfNeeded s1 e1 db = db := by
        unfold bootstrapIfNeeded
        rw [if_pos hg]
      rw [h1]
      have h2 : bootstrapIfNeeded s2 e2 db = db := by
        unfold bootstrapIfNeeded
        rw [if_pos hg]
      rw [h2]
    · have h1 : bootstrapIfNeeded s1 e1 db = bootstrapCompute s1 e1 db := by
        unfold bootstrapIfNeeded
        rw [if_neg hg]
      rw [h1]
      by_cases hpc : procedureCountsOf db.claims = []
      · have hcond : ((bootstrapCompute s1 e1 db).summary.isSome &&
            !(bootstrapCompute s1 e1 db).procCounts.isEmpty) = false := by
          simp [bootstrapCompute, hpc]
        have h2 : bootstrapIfNeeded s2 e2 (bootstrapCompute s1 e1 db) =
            bootstrapCompute s2 e2 (bootstrapCompute s1 e1 db) := by
          unfold bootstrapIfNeeded
          rw [if_neg (by rw [hcond]; exact Bool.false_ne_true)]
        rw [h2]
        rfl
      · rw [bootstrapIfNeeded_noop s2 e2 (bootstrapCompute s1 e1 db) rfl hpc]
  · intro h1 h2
    exact bootstrapIfNeeded_noop s2 e2 _ h1 h2

/-- Witness for the amended C6: on a one-claim collection with procedure
codes, the second bootstrap run is a bit-identical no-op, so in particular
the summaries agree after scrubbing the wall-clock meta fields. -/
theorem claim_C6_bootstrap_idempotent_witness :
    scrubVolatileMeta (bootstrapIfNeeded 10 17 (bootstrapIfNeeded 0 5 exC6Db)).summary =
      scrubVolatileMeta (bootstrapIfNeeded 0 5 exC6Db).summary ∧
    bootstrapIfNeeded 10 17 (bootstrapIfNeeded 0 5 exC6Db) =
      bootstrapIfNeeded 0 5 exC6Db := by
  have h := claim_C6_bootstrap_idempotent exC6Db 0 5 10 17
  exact ⟨h.1, h.2 (by decide) (by decide)⟩

theorem mem_insertSorted (le : α → α → Bool) (x a : α) (l : List α) :
    a ∈ insertSorted le x l ↔ a = x ∨ a ∈ l := by
  induction l with
  | nil => simp [insertSorted]
  | cons y ys ih =>
    unfold insertSorted
    by_cases hxy : le x y = true
    · rw [if_pos hxy]
      simp only [List.mem_cons]
    · rw [if_neg hxy]
      simp only [List.mem_cons, ih]
      tauto

theorem pairwise_insertSorted (le : α → α → Bool)
    (htot : ∀ a b, le a b = false → le b a = true)
    (htrans : ∀ a b c, le a b = true → le b c = true → le a c = true)
    (x : α) (l : List α) (h : l.Pairwise (fun a b => le a b = true)) :
    (insertSorted le x l).Pairwise (fun a b => le a b = true) := by
  induction l with
  | nil => simp [insertSorted]
  | cons y ys ih =>
    rcases List.pairwise_cons.mp h with ⟨hy, hys⟩
    unfold insertSorted
    by_cases hxy : le x y = true
    · rw [if_pos hxy]
      refine List.pairwise_cons.mpr ⟨?_, h⟩
      intro b hb
      rcases List.mem_cons.mp hb with hb | hb
      · rw [hb]
        exact hxy
      · exact htrans x y b hxy (hy b hb)
    · rw [if_neg hxy]
      refine List.pairwise_cons.mpr ⟨?_, ih hys⟩
      intro b hb
      rcases (mem_insertSorted le x b ys).mp hb with hb | hb
      · rw [hb]
        exact htot x y (Bool.not_eq_true _ ▸ hxy)
      · exact hy b hb

theorem pairwise_sortByLe (le : α → α → Bool)
    (htot : ∀ a b, le a b = false → le b a = true)
    (htrans : ∀ a b c, le a b = true → le b c = true → le a c = true)
    (l : List α) : (sortByLe le l).Pairwise (fun a b => le a b = true) := by
  induction l with
  | nil => simp [sortByLe]
  | cons x xs ih => exact pairwise_insertSorted le htot htrans x (sortByLe le xs) ih

/-- Helper: the stable sort by descending count is pairwise descending. -/
theorem pairwise_sort_desc (l : List (String × Int)) :
    (sortByLe (fun a b => decide (b.2 ≤ a.2)) l).Pairwise (fun a b => b.2 ≤ a.2) := by
  have h := pairwise_sortByLe (fun a b : String × Int => decide (b.2 ≤ a.2))
    (fun a b hab => by
      simp only [decide_eq_false_iff_not] at hab
      simp only [decide_eq_true_eq]
      omega)
    (fun a b c hab hbc => by
      simp only [decide_eq_true_eq] at *
      omega) l
  exact h.imp (fun hab => by simpa using hab)

/-- Counterexample for C7: a legacy-shape summary document (no materialized
totals or statusCounts, data present) is pushed verbatim: its statusBreakdown
stays in its stored, non-descending order and its stale topProcedures list is
kept instead of the top five of the facet collection, so the emitted update
is not the re-derived wire shape the claim asserts for every update. -/
theorem claim_C7_counterexample :
    emitSummary exProcDb true exLegacyDoc = ⟨WireData.legacy exLegacyData, none⟩ ∧
    emitSummary exProcDb true exLegacyDoc ≠
      ⟨WireData.built 5 500 [("b", 5), ("a", 1)] (top5 exProcDb), none⟩ := by
  decide

/-- C7 amended: a summary change whose document has materialized totals or
statusCounts, or no legacy data at all, is normalized into the wire shape
with statusBreakdown re-derived sorted by count descending and the top five
procedure facets refetched (empty when that fetch fails); a legacy-shape
document, however, is forwarded verbatim, without re-derivation or refetch. -/
theorem claim_C7_broadcaster_normalization (procDb : List (String × Int))
    (fetchOk : Bool) (doc : RawSummaryDoc) :
    ((hasKeysRaw (doc.totals.getD ⟨none, none⟩) ||
        !(doc.statusCounts.getD []).isEmpty) = true ∨ doc.data = none →
      emitSummary procDb fetchOk doc =
        ⟨WireData.built ((doc.totals.getD ⟨none, none⟩).totalClaims.getD 0)
          ((doc.totals.getD ⟨none, none⟩).totalAmount.getD 0)
          (sortByLe (fun a b => decide (b.2 ≤ a.2)) (doc.statusCounts.getD []))
          (if fetchOk then top5 procDb else []), doc.meta⟩) ∧
    (sortByLe (fun a b => decide (b.2 ≤ a.2)) (doc.statusCounts.getD [])).Pairwise
      (fun a b => b.2 ≤ a.2) ∧
    (∀ d, (hasKeysRaw (doc.totals.getD ⟨none, none⟩) ||
        !(doc.statusCounts.getD []).isEmpty) = false → doc.data = some d →
      emitSummary procDb fetchOk doc = ⟨WireData.legacy d, doc.meta⟩) := by
  refine ⟨?_, pairwise_sort_desc _, ?_⟩
  · intro hcase
    simp only [emitSummary]
    cases hd : doc.data with
    | none => rfl
    | some d =>
      rcases hcase with hm | hnone
      · rw [hm]
      · rw [hd] at hnone
        exact absurd hnone (by simp)
  · intro d hm hd
    simp only [emitSummary]
    rw [hd, hm]

/-- Witness for the amended C7: a concrete materialized document is pushed in
the normalized wire shape with the breakdown re-sorted descending and the top
five facets refetched, while a concrete legacy document passes through. -/
theorem claim_C7_broadcaster_normalization_witness :
    emitSummary exProcDb true exMatDoc =
      ⟨WireData.built 10 1000 [("b", 5), ("a", 1)] [("p9", 9), ("p1", 1)],
        some ⟨1, 2, "change-stream"⟩⟩ ∧
    emitSummary exProcDb true exLegacyDoc = ⟨WireData.legacy exLegacyData, none⟩ := by
  have h := claim_C7_broadcaster_normalization exProcDb true exMatDoc
  have h2 := claim_C7_broadcaster_normalization exProcDb true exLegacyDoc
  refine ⟨?_, h2.2.2 exLegacyData (by decide) rfl⟩
  have hb := h.1 (Or.inl (by decide))
  rw [hb]
  decide

/-- C10: clearSlowOps returns deletedCount zero in every outcome, whether the
disable-and-drop sequence succeeds (cleared true) or fails (cleared false),
independently of how many profiling entries the drop removes; cleared itself
records exactly the success of the profiler-disable command. -/
theorem claim_C10_clear_slowops_zero (profileDisableOk dropOk shouldEnableProfiler
    enableOk : Bool) (profileEntries : Nat) :
    (clearSlowOps profileDisableOk dropOk shouldEnableProfiler enableOk
      profileEntries).deletedCount = 0 ∧
    (clearSlowOps profileDisableOk dropOk shouldEnableProfiler enableOk
      profileEntries).cleared = profileDisableOk := by
  unfold clearSlowOps
  cases profileDisableOk <;> exact ⟨rfl, rfl⟩
